import Mathlib

/-!
# nostr-teleport: relay aggregation and migration workflow

A shallow embedding of `src/index.js` (class `NostrTeleport`).

* Relay traffic is made explicit: the value `pool.querySync` resolves to (or the
  error it rejects with) is an input of each operation, and so is the list of
  per-relay outcomes of every `pool.publish` call.
* `Date.now()` is an input (milliseconds).
* The functions imported from `nostr-tools` and the JSON built-ins are fields
  of `Lib`; a function that can throw returns `Option`, `none` being the throw.
* Every event handed to `pool.publish` is recorded, in order, in `Run.published`.
-/

namespace NostrTeleport

/-! ## Data model -/

/-- A protocol event, with the fields `index.js` reads or writes. -/
structure Event where
  kind : Int
  pubkey : String
  created_at : Int
  tags : List (List String)
  content : String
  deriving DecidableEq, Repr

/-- A parsed JSON value, the result of `JSON.parse`. -/
inductive Json where
  | null : Json
  | bool : Bool → Json
  | num : Int → Json
  | str : String → Json
  | arr : List Json → Json
  | obj : List (String × Json) → Json

/-- The record returned by `getAccount`. -/
structure Account where
  prvKey : String
  nsec : String
  pubKey : String
  npub : String
  deriving DecidableEq, Repr

/-- An entry of the lists built by `getContacts` and `getFollowers`. -/
structure Contact where
  pubKey : String
  npub : String
  deriving DecidableEq, Repr

/-- The library functions `index.js` imports, and the JSON built-ins. -/
structure Lib where
  nsecEncode : String → Option String
  npubEncode : String → Option String
  getPublicKey : String → Option String
  jsonParse : String → Option Json
  jsonStringify : Json → String

/-- The instance state: `relays`, `#oldAccount`, `#newAccount`. -/
structure Teleport where
  relays : List String
  oldAccount : Account
  newAccount : Account
  deriving DecidableEq, Repr

/-- The default relay list `relayArray`. -/
def relayArray : List String :=
  ["wss://relay.damus.io", "wss://nos.lol", "wss://nostr.bitcoiner.social", "wss://offchain.pub"]

/-- The method `getAccount(prvKey)`; `none` when one of the encoders throws. -/
def getAccount (lib : Lib) (prvKey : String) : Option Account :=
  match lib.nsecEncode prvKey with
  | none => none
  | some nsec =>
    match lib.getPublicKey prvKey with
    | none => none
    | some pubKey =>
      match lib.npubEncode pubKey with
      | none => none
      | some npub => some { prvKey := prvKey, nsec := nsec, pubKey := pubKey, npub := npub }

/-- The constructor of the class. -/
def construct (lib : Lib) (oldPrvKey newPrvKey : String) (relays : List String) : Option Teleport :=
  match getAccount lib oldPrvKey with
  | none => none
  | some o =>
    match getAccount lib newPrvKey with
    | none => none
    | some n => some { relays := relays, oldAccount := o, newAccount := n }

/-! ## getMetadata -/

/-- The callback of `events.reduce` in `getMetadata`:
`current.created_at > latest.created_at ? current : latest`. -/
def pickLater (latest current : Event) : Event :=
  if current.created_at > latest.created_at then current else latest

/-- The guarded reduction of `getMetadata`: `events.length > 0` and then
`events.reduce(...)` without an initial value, so the first element seeds the
accumulator. -/
def latestEvent : List Event → Option Event
  | [] => none
  | e :: es => some (es.foldl pickLater e)

/-- The keys of the characters of a string or of the items of an array under
object spread: `"0"`, `"1"`, ... -/
def indexKeys {α : Type} (xs : List α) : List (String × α) :=
  xs.enum.map (fun p => (toString p.1, p.2))

/-- Object spread `{...v}` of a parsed JSON value: the own enumerable
properties of `v`. -/
def spread : Json → List (String × Json)
  | Json.obj kvs => kvs
  | Json.arr xs => indexKeys xs
  | Json.str s => indexKeys (s.toList.map (fun c => Json.str (String.singleton c)))
  | _ => []

/-- What a call of `getMetadata` evaluates to: `null`, `undefined` (the
`catch` branch ends without a `return`), or the spread object. -/
inductive Metadata where
  | null : Metadata
  | undefined : Metadata
  | object : List (String × Json) → Metadata

/-- The method `getMetadata(pubKey)`, given what `pool.querySync` produced. -/
def getMetadata (lib : Lib) (query : Except String (List Event)) : Metadata :=
  match query with
  | .error _ => Metadata.undefined
  | .ok events =>
    match latestEvent events with
    | none => Metadata.null
    | some event =>
      if event.content = "" then Metadata.null
      else
        match lib.jsonParse event.content with
        | none => Metadata.undefined
        | some v => Metadata.object (spread v)

/-! ## getContacts and getFollowers -/

/-- The body of the `forEach(async (pubKey) => ...)` callbacks: the entry is
pushed when `nip19.npubEncode` returns; when it throws (also on the `undefined`
of a tag without second item) the rejection stays inside the callback's promise
and nothing is pushed. -/
def pushEncoded (lib : Lib) (pubKey : Option String) : Option Contact :=
  match pubKey with
  | none => none
  | some pk =>
    match lib.npubEncode pk with
    | none => none
    | some npub => some { pubKey := pk, npub := npub }

/-- The value `events[0].tags.filter(tag => tag[0] === 'p').map(tag => tag[1])`. -/
def followingsData (event : Event) : List (Option String) :=
  (event.tags.filter (fun tag => tag.head? == some "p")).map (fun tag => tag.get? 1)

/-- The method `getContacts(pubKey)`, given what `pool.querySync` produced;
`none` is the `undefined` of the `catch` branch. -/
def getContacts (lib : Lib) (query : Except String (List Event)) : Option (List Contact) :=
  match query with
  | .error _ => none
  | .ok events =>
    match events with
    | [] => some []
    | first :: _ =>
      if first.kind = 3 then some ((followingsData first).filterMap (pushEncoded lib))
      else some []

/-- The filter of `getFollowers`:
`index === self.findIndex((o) => o.pubkey === obj.pubkey)`. -/
def firstPerAuthor (events : List Event) : List Event :=
  (events.enum.filter
    (fun p => p.1 == events.findIdx (fun o => o.pubkey == p.2.pubkey))).map (fun p => p.2)

/-- The array `followersData` of `getFollowers`: the authors of the kept
events whose `kind` is 3. -/
def followersData (events : List Event) : List String :=
  ((firstPerAuthor events).filter (fun item => item.kind == 3)).map (fun item => item.pubkey)

/-- The method `getFollowers()`, given what `pool.querySync` produced. -/
def getFollowers (lib : Lib) (query : Except String (List Event)) : Option (List Contact) :=
  match query with
  | .error _ => none
  | .ok events =>
    if events.length > 0 then
      some ((followersData events).filterMap (fun pk => pushEncoded lib (some pk)))
    else some []

/-! ## Publishing -/

/-- The combinator `Promise.any` over the settled outcomes of its promises:
fulfilled with a fulfilled value when there is one, otherwise rejected with
all the reasons. -/
def promiseAny {ε α : Type} : List (Except ε α) → Except (List ε) α
  | [] => .error []
  | .ok v :: _ => .ok v
  | .error e :: rest =>
    match promiseAny rest with
    | .ok v => .ok v
    | .error es => .error (e :: es)

/-- The function `finalizeEvent(template, prvKey)` of `nostr-tools`: stamps the
author key derived from the private key (id and signature are not modelled). -/
def finalizeEvent (lib : Lib) (kind created_at : Int) (tags : List (List String))
    (content : String) (prvKey : String) : Option Event :=
  match lib.getPublicKey prvKey with
  | none => none
  | some pk =>
    some { kind := kind, pubkey := pk, created_at := created_at, tags := tags, content := content }

/-- The expression `Math.floor(Date.now() / 1000)`. -/
def unixSeconds (nowMs : Nat) : Int := ((nowMs / 1000 : Nat) : Int)

/-- How a workflow method ends. -/
inductive Outcome where
  | noMetadata
  | alreadyTeleported
  | noContacts
  | completed
  | failedLogged
  | threw
  deriving DecidableEq, Repr

/-- The observable effect of a workflow method: the events handed to
`pool.publish`, in order, and how the method ended. -/
structure Run where
  published : List Event
  outcome : Outcome
  deriving DecidableEq, Repr

/-! ## transferMetadata -/

/-- The template string `aboutMessage` of `transferMetadata`. -/
def aboutMessage (npub : String) : String :=
  "✨ I\x27ve teleported! ✨ This account has been transferred to a new dimension!\n" ++
  "You’ll find me now under my new account: nostr:" ++ npub ++ "\n" ++
  "Powered by: https://github.com/Anderson-Juhasc/nostr-teleport #NostrTeleport"

/-- Property access `o.key` on the spread object. -/
def prop (o : List (String × Json)) (key : String) : Option Json :=
  o.lookup key

/-- The test `oldMetadata.about === aboutMessage`. -/
def aboutIs (o : List (String × Json)) (msg : String) : Bool :=
  match prop o "about" with
  | some (Json.str s) => s == msg
  | _ => false

/-- An object literal whose properties may be `undefined`; `JSON.stringify`
leaves those out. -/
def objectLiteral (fields : List (String × Option Json)) : Json :=
  Json.obj (fields.filterMap (fun kv => kv.2.map (fun v => (kv.1, v))))

/-- The content of the event published for the old account. -/
def oldAccountContent (lib : Lib) (o : List (String × Json)) (about : String) : String :=
  lib.jsonStringify (objectLiteral
    [("name", prop o "name"), ("display_name", prop o "display_name"),
     ("about", some (Json.str about))])

/-- The method `transferMetadata()`. `query` is what `pool.querySync` produced
inside `getMetadata`, `now1` and `now2` the two readings of `Date.now()`, `pub1`
and `pub2` the per-relay outcomes of the two `pool.publish` calls. -/
def transferMetadata (lib : Lib) (t : Teleport) (query : Except String (List Event))
    (now1 now2 : Nat) (pub1 pub2 : List (Except String String)) : Run :=
  match getMetadata lib query with
  | Metadata.null => { published := [], outcome := Outcome.noMetadata }
  | Metadata.undefined => { published := [], outcome := Outcome.noMetadata }
  | Metadata.object oldMetadata =>
    let about := aboutMessage t.newAccount.npub
    if aboutIs oldMetadata about then { published := [], outcome := Outcome.alreadyTeleported }
    else
      match finalizeEvent lib 0 (unixSeconds now1) [] (oldAccountContent lib oldMetadata about)
          t.oldAccount.prvKey with
      | none => { published := [], outcome := Outcome.failedLogged }
      | some signed1 =>
        match promiseAny pub1 with
        | .error _ => { published := [signed1], outcome := Outcome.failedLogged }
        | .ok _ =>
          match finalizeEvent lib 0 (unixSeconds now2) []
              (lib.jsonStringify (Json.obj oldMetadata)) t.newAccount.prvKey with
          | none => { published := [signed1], outcome := Outcome.failedLogged }
          | some signed2 =>
            match promiseAny pub2 with
            | .error _ => { published := [signed1, signed2], outcome := Outcome.failedLogged }
            | .ok _ => { published := [signed1, signed2], outcome := Outcome.completed }

/-! ## migrateContacts -/

/-- The method `migrateContacts()`. `oldContacts` is what `getContacts`
returned (`none` for `undefined`), `now` the reading of `Date.now()`, `pub` the
per-relay outcomes of the `pool.publish` call. Reading `.length` of
`undefined` throws outside the `try`, so the method rejects. -/
def migrateContacts (lib : Lib) (t : Teleport) (oldContacts : Option (List Contact))
    (now : Nat) (pub : List (Except String String)) : Run :=
  match oldContacts with
  | none => { published := [], outcome := Outcome.threw }
  | some cs =>
    if cs.length = 0 then { published := [], outcome := Outcome.noContacts }
    else
      match finalizeEvent lib 3 (unixSeconds now) (cs.map (fun contact => ["p", contact.pubKey])) ""
          t.newAccount.prvKey with
      | none => { published := [], outcome := Outcome.failedLogged }
      | some signedEvent =>
        match promiseAny pub with
        | .error _ => { published := [signedEvent], outcome := Outcome.failedLogged }
        | .ok _ => { published := [signedEvent], outcome := Outcome.completed }

/-- The method `migrateContacts()` from the relay answer on: `getContacts`
followed by the rest of the method. -/
def migrateContactsFrom (lib : Lib) (t : Teleport) (query : Except String (List Event))
    (now : Nat) (pub : List (Except String String)) : Run :=
  migrateContacts lib t (getContacts lib query) now pub

/-! ## A concrete library for evaluating the model -/

/-- A stand-in for the library: encoders that prefix, a parser that knows two
documents. -/
def sampleLib : Lib where
  nsecEncode := fun s => some ("nsec1" ++ s)
  npubEncode := fun s => some ("npub1" ++ s)
  getPublicKey := fun s => some ("pk-" ++ s)
  jsonParse := fun s =>
    if s = "profile" then some (Json.obj [("name", Json.str "alice"), ("about", Json.str "hello")])
    else if s = "moved" then some (Json.obj [("about", Json.str (aboutMessage "npub1pk-new"))])
    else none
  jsonStringify := fun _ => "json"

/-- A sample instance over `sampleLib`. -/
def sampleTeleport : Teleport where
  relays := relayArray
  oldAccount := { prvKey := "old", nsec := "nsec1old", pubKey := "pk-old", npub := "npub1pk-old" }
  newAccount := { prvKey := "new", nsec := "nsec1new", pubKey := "pk-new", npub := "npub1pk-new" }

/-- A kind-0 event of the sample old account. -/
def profileAt (created_at : Int) (content : String) : Event :=
  { kind := 0, pubkey := "pk-old", created_at := created_at, tags := [], content := content }

/-- An event of author `author` listing the followed keys `follows`. -/
def listAt (kind : Int) (author : String) (created_at : Int) (follows : List String) : Event :=
  { kind := kind, pubkey := author, created_at := created_at,
    tags := follows.map (fun pk => ["p", pk]), content := "" }

/-- The event `transferMetadata` publishes for the sample old account over
`sampleLib`, stamped `created_at`. -/
def announcedAt (created_at : Int) : Event :=
  { kind := 0, pubkey := "pk-old", created_at := created_at, tags := [], content := "json" }

/-! ## The reduction of getMetadata -/

/-- The fold of `pickLater` stops at the first element of maximal `created_at`:
the elements before it are strictly older, the elements after it are not newer. -/
theorem foldl_pickLater_split (l : List Event) (e : Event) :
    ∃ pre post, e :: l = pre ++ l.foldl pickLater e :: post ∧
      (∀ x ∈ pre, x.created_at < (l.foldl pickLater e).created_at) ∧
      (∀ x ∈ post, x.created_at ≤ (l.foldl pickLater e).created_at) := by
  induction l using List.reverseRecOn with
  | nil => exact ⟨[], [], by simp⟩
  | append_singleton l x ih =>
    obtain ⟨pre, post, hsplit, hpre, hpost⟩ := ih
    rw [List.foldl_append]
    simp only [List.foldl_cons, List.foldl_nil]
    by_cases hx : x.created_at > (l.foldl pickLater e).created_at
    · have hr : pickLater (l.foldl pickLater e) x = x := by simp [pickLater, hx]
      rw [hr]
      refine ⟨e :: l, [], by simp, ?_, by simp⟩
      intro y hy
      rw [hsplit] at hy
      rcases List.mem_append.mp hy with h | h
      · exact lt_trans (hpre y h) hx
      · rcases List.mem_cons.mp h with h | h
        · rw [h]; exact hx
        · exact lt_of_le_of_lt (hpost y h) hx
    · have hr : pickLater (l.foldl pickLater e) x = l.foldl pickLater e := by
        simp [pickLater, hx]
      rw [hr]
      refine ⟨pre, post ++ [x], ?_, hpre, ?_⟩
      · rw [← List.cons_append, hsplit]; simp
      · intro y hy
        rcases List.mem_append.mp hy with h | h
        · exact hpost y h
        · simp only [List.mem_singleton] at h
          rw [h]; exact not_lt.mp hx

/-- The selected event, as a specification: it splits the list into strictly
older events before it and not newer events after it. -/
theorem latestEvent_split (es : List Event) (hne : es ≠ []) :
    ∃ e pre post, latestEvent es = some e ∧ es = pre ++ e :: post ∧
      (∀ x ∈ pre, x.created_at < e.created_at) ∧
      (∀ x ∈ post, x.created_at ≤ e.created_at) := by
  cases es with
  | nil => exact absurd rfl hne
  | cons a l =>
    obtain ⟨pre, post, h1, h2, h3⟩ := foldl_pickLater_split l a
    exact ⟨l.foldl pickLater a, pre, post, rfl, h1, h2, h3⟩

/-- The selected event is a member of maximal `created_at`. -/
theorem latestEvent_max (es : List Event) (e : Event) (h : latestEvent es = some e) :
    e ∈ es ∧ ∀ x ∈ es, x.created_at ≤ e.created_at := by
  have hne : es ≠ [] := by
    intro h0
    rw [h0] at h
    simp [latestEvent] at h
  obtain ⟨e1, pre, post, h1, h2, h3, h4⟩ := latestEvent_split es hne
  rw [h] at h1
  cases h1
  refine ⟨by rw [h2]; simp, ?_⟩
  intro x hx
  rw [h2] at hx
  rcases List.mem_append.mp hx with hm | hm
  · exact le_of_lt (h3 x hm)
  · rcases List.mem_cons.mp hm with hm | hm
    · rw [hm]
    · exact h4 x hm

/-- C1: for a non-empty list of events, the event chosen by the reduction of
`getMetadata` is an element of the list, no element has a greater `created_at`,
and every element in front of it is strictly older (it is the first of those
that tie for the maximum); for two copies of an event `e` and a newer event
`n`, in any of the three orders, the chosen event is `n`. -/
theorem latestEvent_first_maximum (es : List Event) (hne : es ≠ []) :
    (∃ e, latestEvent es = some e ∧ e ∈ es ∧ (∀ x ∈ es, x.created_at ≤ e.created_at) ∧
      ∃ pre post, es = pre ++ e :: post ∧ ∀ x ∈ pre, x.created_at < e.created_at) ∧
    (∀ e n : Event, e.created_at < n.created_at →
      es = [e, e, n] ∨ es = [e, n, e] ∨ es = [n, e, e] → latestEvent es = some n) := by
  constructor
  · obtain ⟨e, pre, post, h1, h2, h3, h4⟩ := latestEvent_split es hne
    exact ⟨e, h1, (latestEvent_max es e h1).1, (latestEvent_max es e h1).2, pre, post, h2, h3⟩
  · intro e n hlt hes
    have hnot2 : ¬ (e.created_at < e.created_at) := lt_irrefl _
    have hnot3 : ¬ (n.created_at < e.created_at) := not_lt.mpr (le_of_lt hlt)
    rcases hes with h | h | h <;> subst h <;>
      simp [latestEvent, pickLater, hlt, hnot2, hnot3]

/-- C1 at a concrete input: two copies of an event and a newer one. -/
theorem latestEvent_first_maximum_witness :
    latestEvent [profileAt 5 "profile", profileAt 9 "moved", profileAt 5 "profile"]
      = some (profileAt 9 "moved") :=
  (latestEvent_first_maximum
    [profileAt 5 "profile", profileAt 9 "moved", profileAt 5 "profile"] (by simp)).2
    (profileAt 5 "profile") (profileAt 9 "moved") (by decide) (Or.inr (Or.inl rfl))

/-- C6 as stated fails: two different events with the same `created_at`, in
the two possible orders, give two different selected events. -/
theorem latestEvent_order_dependent :
    List.Perm [profileAt 5 "profile", profileAt 5 "moved"]
        [profileAt 5 "moved", profileAt 5 "profile"] ∧
      latestEvent [profileAt 5 "profile", profileAt 5 "moved"] = some (profileAt 5 "profile") ∧
      latestEvent [profileAt 5 "moved", profileAt 5 "profile"] = some (profileAt 5 "moved") ∧
      latestEvent [profileAt 5 "profile", profileAt 5 "moved"]
        ≠ latestEvent [profileAt 5 "moved", profileAt 5 "profile"] := by
  refine ⟨List.Perm.swap _ _ _, by decide, by decide, by decide⟩

/-- C6, amended: for a non-empty list and any permutation of it, the events
selected from the two orders have the same `created_at`, which no element of
the list exceeds; they are the same event whenever all elements of the list
that carry this maximal `created_at` are equal. -/
theorem latestEvent_perm (es es' : List Event) (hne : es ≠ []) (hp : es.Perm es') :
    ∃ e e', latestEvent es = some e ∧ latestEvent es' = some e' ∧
      e'.created_at = e.created_at ∧ (∀ x ∈ es, x.created_at ≤ e.created_at) ∧
      ((∀ x ∈ es, ∀ y ∈ es, x.created_at = e.created_at → y.created_at = e.created_at → x = y)
        → e' = e) := by
  have hne' : es' ≠ [] := by
    intro h0
    rw [h0] at hp
    exact hne hp.eq_nil
  obtain ⟨e, _, _, h1, _⟩ := latestEvent_split es hne
  obtain ⟨e', _, _, h1', _⟩ := latestEvent_split es' hne'
  obtain ⟨hm, hmax⟩ := latestEvent_max es e h1
  obtain ⟨hm', hmax'⟩ := latestEvent_max es' e' h1'
  have hm2 : e' ∈ es := hp.mem_iff.mpr hm'
  have heq : e'.created_at = e.created_at :=
    le_antisymm (hmax e' hm2) (hmax' e (hp.mem_iff.mp hm))
  exact ⟨e, e', h1, h1', heq, hmax, fun hu => hu e' hm2 e hm heq rfl⟩

/-- C6 amended, at a concrete input: a rotation of three events with one
newest gives the same selected event. -/
theorem latestEvent_perm_witness :
    latestEvent [profileAt 9 "moved", profileAt 7 "profile", profileAt 5 "profile"]
      = latestEvent [profileAt 5 "profile", profileAt 9 "moved", profileAt 7 "profile"] := by
  obtain ⟨e, e', h1, h2, _, _, h5⟩ :=
    latestEvent_perm [profileAt 5 "profile", profileAt 9 "moved", profileAt 7 "profile"]
      [profileAt 9 "moved", profileAt 7 "profile", profileAt 5 "profile"] (by simp)
      (List.perm_append_comm :
        List.Perm ([profileAt 5 "profile"] ++ [profileAt 9 "moved", profileAt 7 "profile"])
          ([profileAt 9 "moved", profileAt 7 "profile"] ++ [profileAt 5 "profile"]))
  have he : e = profileAt 9 "moved" := by
    have h0 : latestEvent [profileAt 5 "profile", profileAt 9 "moved", profileAt 7 "profile"]
        = some (profileAt 9 "moved") := by decide
    rw [h0] at h1
    exact (Option.some.inj h1).symm
  subst he
  rw [h1, h2, h5 (by decide)]

/-! ## transferMetadata -/

/-- An instance built by the constructor holds, for each account, the public
key that `getPublicKey` derives from its private key. -/
theorem construct_keys (lib : Lib) (oldPrvKey newPrvKey : String) (relays : List String)
    (t : Teleport) (hc : construct lib oldPrvKey newPrvKey relays = some t) :
    lib.getPublicKey t.oldAccount.prvKey = some t.oldAccount.pubKey ∧
      lib.getPublicKey t.newAccount.prvKey = some t.newAccount.pubKey := by
  have hacc : ∀ k a, getAccount lib k = some a → lib.getPublicKey a.prvKey = some a.pubKey := by
    intro k a h
    unfold getAccount at h
    cases h1 : lib.nsecEncode k with
    | none => simp [h1] at h
    | some nsec =>
      cases h2 : lib.getPublicKey k with
      | none => simp [h1, h2] at h
      | some pk =>
        cases h3 : lib.npubEncode pk with
        | none => simp [h1, h2, h3] at h
        | some npub =>
          simp [h1, h2, h3] at h
          subst h
          exact h2
  unfold construct at hc
  split at hc
  · cases hc
  · next o ho =>
    split at hc
    · cases hc
    · next n hn =>
      cases hc
      exact ⟨hacc _ _ ho, hacc _ _ hn⟩

theorem aboutIs_of_prop (o : List (String × Json)) (msg : String)
    (h : prop o "about" = some (Json.str msg)) : aboutIs o msg = true := by
  simp [aboutIs, h]

/-- C2: when the old metadata object has an `about` field equal to the marker
computed from the new account's npub, `transferMetadata` hands no event to
`pool.publish`, neither for the old nor for the new account. -/
theorem transferMetadata_already_teleported (lib : Lib) (t : Teleport)
    (query : Except String (List Event)) (o : List (String × Json)) (now1 now2 : Nat)
    (pub1 pub2 : List (Except String String))
    (hmeta : getMetadata lib query = Metadata.object o)
    (habout : prop o "about" = some (Json.str (aboutMessage t.newAccount.npub))) :
    (transferMetadata lib t query now1 now2 pub1 pub2).published = [] ∧
      (transferMetadata lib t query now1 now2 pub1 pub2).outcome = Outcome.alreadyTeleported := by
  have h := aboutIs_of_prop o _ habout
  simp [transferMetadata, hmeta, h]

/-- C5: when the query returns no event, or the event selected as latest has
empty content, `getMetadata` returns `null` and `transferMetadata` ends as a
no-op that hands no event to `pool.publish`. -/
theorem transferMetadata_nothing_to_migrate (lib : Lib) (t : Teleport) (events : List Event)
    (now1 now2 : Nat) (pub1 pub2 : List (Except String String))
    (h : events = [] ∨ ∃ e, latestEvent events = some e ∧ e.content = "") :
    getMetadata lib (.ok events) = Metadata.null ∧
      (transferMetadata lib t (.ok events) now1 now2 pub1 pub2).published = [] ∧
      (transferMetadata lib t (.ok events) now1 now2 pub1 pub2).outcome = Outcome.noMetadata := by
  have hnull : getMetadata lib (.ok events) = Metadata.null := by
    rcases h with h | ⟨e, he, hc⟩
    · subst h
      simp [getMetadata, latestEvent]
    · simp [getMetadata, he, hc]
  simp [transferMetadata, hnull]

/-- C2 at a concrete input: the latest profile of the old account already
carries the marker of the new account. -/
theorem transferMetadata_already_teleported_witness :
    (transferMetadata sampleLib sampleTeleport (.ok [profileAt 5 "moved"]) 1000 2000
        [.ok "saved"] [.ok "saved"]).published = [] ∧
      (transferMetadata sampleLib sampleTeleport (.ok [profileAt 5 "moved"]) 1000 2000
        [.ok "saved"] [.ok "saved"]).outcome = Outcome.alreadyTeleported :=
  transferMetadata_already_teleported sampleLib sampleTeleport (.ok [profileAt 5 "moved"])
    [("about", Json.str (aboutMessage "npub1pk-new"))] 1000 2000 [.ok "saved"] [.ok "saved"]
    (by simp [getMetadata, latestEvent, profileAt, sampleLib, spread])
    (by simp [prop, List.lookup, sampleTeleport])

/-- C5 at a concrete input: the only event has empty content. -/
theorem transferMetadata_nothing_to_migrate_witness :
    getMetadata sampleLib (.ok [profileAt 5 ""]) = Metadata.null ∧
      (transferMetadata sampleLib sampleTeleport (.ok [profileAt 5 ""]) 1000 2000
        [.ok "saved"] [.ok "saved"]).published = [] ∧
      (transferMetadata sampleLib sampleTeleport (.ok [profileAt 5 ""]) 1000 2000
        [.ok "saved"] [.ok "saved"]).outcome = Outcome.noMetadata :=
  transferMetadata_nothing_to_migrate sampleLib sampleTeleport [profileAt 5 ""] 1000 2000
    [.ok "saved"] [.ok "saved"] (Or.inr ⟨profileAt 5 "", rfl, rfl⟩)

/-! ## Publishing -/

theorem promiseAny_ok_iff {ε α : Type} (os : List (Except ε α)) :
    (∃ v, promiseAny os = .ok v) ↔ ∃ v, Except.ok v ∈ os := by
  induction os with
  | nil => simp [promiseAny]
  | cons o rest ih =>
    cases o with
    | ok v => simp [promiseAny]
    | error e =>
      have hstep : (∃ v, promiseAny (Except.error e :: rest) = .ok v) ↔
          ∃ v, promiseAny rest = .ok v := by
        cases hr : promiseAny rest <;> simp [promiseAny, hr]
      rw [hstep, ih]
      simp

theorem promiseAny_error_iff {ε α : Type} (os : List (Except ε α)) :
    (∃ errs, promiseAny os = .error errs) ↔ ∀ o ∈ os, ∃ e, o = Except.error e := by
  induction os with
  | nil => simp [promiseAny]
  | cons o rest ih =>
    cases o with
    | ok v => simp [promiseAny]
    | error e =>
      have hstep : (∃ errs, promiseAny (Except.error e :: rest) = .error errs) ↔
          ∃ errs, promiseAny rest = .error errs := by
        cases hr : promiseAny rest <;> simp [promiseAny, hr]
      rw [hstep, ih]
      simp

theorem promiseAny_cases {ε α : Type} (os : List (Except ε α)) :
    ((∃ v, Except.ok v ∈ os) ∧ ∃ v, promiseAny os = .ok v) ∨
      ((¬ ∃ v, Except.ok v ∈ os) ∧ ∃ errs, promiseAny os = .error errs) := by
  by_cases h : ∃ v, Except.ok v ∈ os
  · exact Or.inl ⟨h, (promiseAny_ok_iff os).mpr h⟩
  · refine Or.inr ⟨h, ?_⟩
    cases hr : promiseAny os with
    | ok v => exact absurd ((promiseAny_ok_iff os).mp ⟨v, hr⟩) h
    | error errs => exact ⟨errs, rfl⟩

/-! ## migrateContacts -/

/-- C3: for a contact list `cs` returned by `getContacts`, `migrateContacts`
hands nothing to `pool.publish` when `cs` is empty, and otherwise exactly one
event: kind 3, authored by the new account, with the tags `["p", c.pubKey]` of
the contacts of `cs` in order and nothing else, and with empty content; two
contacts `a`, `b` give the tags `[["p", a.pubKey], ["p", b.pubKey]]`. -/
theorem migrateContacts_publishes (lib : Lib) (t : Teleport) (oldPrvKey newPrvKey : String)
    (relays : List String) (hc : construct lib oldPrvKey newPrvKey relays = some t)
    (cs : List Contact) (now : Nat) (pub : List (Except String String)) :
    (cs = [] → (migrateContacts lib t (some cs) now pub).published = []) ∧
    (cs ≠ [] → (migrateContacts lib t (some cs) now pub).published =
      [{ kind := 3, pubkey := t.newAccount.pubKey, created_at := unixSeconds now,
         tags := cs.map (fun c => ["p", c.pubKey]), content := "" }]) ∧
    (∀ a b : Contact, cs = [a, b] →
      ∃ ev, (migrateContacts lib t (some cs) now pub).published = [ev] ∧ ev.kind = 3 ∧
        ev.pubkey = t.newAccount.pubKey ∧
        ev.tags = [["p", a.pubKey], ["p", b.pubKey]] ∧ ev.content = "") := by
  have hk := (construct_keys lib oldPrvKey newPrvKey relays t hc).2
  have hmain : cs ≠ [] → (migrateContacts lib t (some cs) now pub).published =
      [{ kind := 3, pubkey := t.newAccount.pubKey, created_at := unixSeconds now,
         tags := cs.map (fun c => ["p", c.pubKey]), content := "" }] := by
    intro hne
    have hlen : ¬ cs.length = 0 := by
      intro h0
      exact hne (List.length_eq_zero.mp h0)
    rcases promiseAny_cases pub with ⟨_, v, hv⟩ | ⟨_, errs, he⟩
    · simp [migrateContacts, hlen, finalizeEvent, hk, hv]
    · simp [migrateContacts, hlen, finalizeEvent, hk, he]
  refine ⟨?_, hmain, ?_⟩
  · intro h0
    subst h0
    simp [migrateContacts]
  · intro a b hab
    refine ⟨_, hmain (by rw [hab]; simp), rfl, rfl, ?_, rfl⟩
    rw [hab]
    rfl

/-- C3 at a concrete input: the contacts `pkA`, `pkB`. -/
theorem migrateContacts_publishes_witness :
    (migrateContacts sampleLib sampleTeleport
        (some [{ pubKey := "pkA", npub := "npub1pkA" }, { pubKey := "pkB", npub := "npub1pkB" }])
        5000 [.error "blocked", .ok "saved"]).published =
      [{ kind := 3, pubkey := "pk-new", created_at := 5,
         tags := [["p", "pkA"], ["p", "pkB"]], content := "" }] :=
  (migrateContacts_publishes sampleLib sampleTeleport "old" "new" relayArray (by rfl)
    [{ pubKey := "pkA", npub := "npub1pkA" }, { pubKey := "pkB", npub := "npub1pkB" }]
    5000 [.error "blocked", .ok "saved"]).2.1 (by simp)

/-- C4: the publish step, `Promise.any` over the per-relay outcomes of
`pool.publish`, is fulfilled exactly when some relay accepts and rejected
exactly when every relay rejects; three rejections and one acceptance give a
fulfilment, four rejections a rejection; `migrateContacts` (with contacts to
migrate) completes exactly when some relay accepts its event, and
`transferMetadata` (with metadata that is not yet marked) completes exactly
when each of its two events is accepted by some relay. -/
theorem publish_succeeds_iff_accepted (lib : Lib) (t : Teleport) (oldPrvKey newPrvKey : String)
    (relays : List String) (hc : construct lib oldPrvKey newPrvKey relays = some t) :
    (∀ os : List (Except String String),
      ((∃ v, promiseAny os = .ok v) ↔ ∃ v, Except.ok v ∈ os) ∧
      ((∃ errs, promiseAny os = .error errs) ↔ ∀ o ∈ os, ∃ e, o = Except.error e)) ∧
    (∀ e1 e2 e3 e4 v : String,
      promiseAny [Except.error e1, .error e2, .ok v, .error e3] = .ok v ∧
      promiseAny ([.error e1, .error e2, .error e3, .error e4] : List (Except String String))
        = .error [e1, e2, e3, e4]) ∧
    (∀ (cs : List Contact) (now : Nat) (pub : List (Except String String)), cs ≠ [] →
      ((migrateContacts lib t (some cs) now pub).outcome = Outcome.completed ↔
        ∃ v, Except.ok v ∈ pub)) ∧
    (∀ (query : Except String (List Event)) (o : List (String × Json)) (now1 now2 : Nat)
      (pub1 pub2 : List (Except String String)),
      getMetadata lib query = Metadata.object o →
      aboutIs o (aboutMessage t.newAccount.npub) = false →
      ((transferMetadata lib t query now1 now2 pub1 pub2).outcome = Outcome.completed ↔
        (∃ v, Except.ok v ∈ pub1) ∧ ∃ v, Except.ok v ∈ pub2)) := by
  obtain ⟨hko, hkn⟩ := construct_keys lib oldPrvKey newPrvKey relays t hc
  refine ⟨fun os => ⟨promiseAny_ok_iff os, promiseAny_error_iff os⟩, ?_, ?_, ?_⟩
  · intro e1 e2 e3 e4 v
    exact ⟨rfl, rfl⟩
  · intro cs now pub hne
    have hlen : ¬ cs.length = 0 := by
      intro h0
      exact hne (List.length_eq_zero.mp h0)
    rcases promiseAny_cases pub with ⟨hacc, v, hv⟩ | ⟨hrej, errs, he⟩
    · simp only [migrateContacts, hlen, finalizeEvent, hkn, hv, if_false]
      exact ⟨fun _ => hacc, fun _ => trivial⟩
    · simp only [migrateContacts, hlen, finalizeEvent, hkn, he, if_false]
      constructor
      · intro h
        cases h
      · intro h
        exact absurd h hrej
  · intro query o now1 now2 pub1 pub2 hmeta habout
    rcases promiseAny_cases pub1 with ⟨hacc1, v1, hv1⟩ | ⟨hrej1, errs1, he1⟩
    · rcases promiseAny_cases pub2 with ⟨hacc2, v2, hv2⟩ | ⟨hrej2, errs2, he2⟩
      · have hout : (transferMetadata lib t query now1 now2 pub1 pub2).outcome
            = Outcome.completed := by
          simp [transferMetadata, hmeta, habout, finalizeEvent, hko, hkn, hv1, hv2]
        exact ⟨fun _ => ⟨hacc1, hacc2⟩, fun _ => hout⟩
      · have hout : (transferMetadata lib t query now1 now2 pub1 pub2).outcome
            = Outcome.failedLogged := by
          simp [transferMetadata, hmeta, habout, finalizeEvent, hko, hkn, hv1, he2]
        rw [hout]
        exact ⟨fun h => (by cases h), fun h => absurd h.2 hrej2⟩
    · have hout : (transferMetadata lib t query now1 now2 pub1 pub2).outcome
          = Outcome.failedLogged := by
        simp [transferMetadata, hmeta, habout, finalizeEvent, hko, hkn, he1]
      rw [hout]
      exact ⟨fun h => (by cases h), fun h => absurd h.1 hrej1⟩

/-- C4 at a concrete input: four relays, the third one accepts. -/
theorem publish_succeeds_iff_accepted_witness :
    (migrateContacts sampleLib sampleTeleport (some [{ pubKey := "pkA", npub := "npub1pkA" }]) 5000
      [.error "blocked", .error "timeout", .ok "saved", .error "blocked"]).outcome
      = Outcome.completed :=
  ((publish_succeeds_iff_accepted sampleLib sampleTeleport "old" "new" relayArray (by rfl)).2.2.1
    [{ pubKey := "pkA", npub := "npub1pkA" }] 5000
    [.error "blocked", .error "timeout", .ok "saved", .error "blocked"] (by simp)).mpr
    ⟨"saved", by simp⟩

/-! ## The timestamp of the event published for the old account -/

theorem foldl_pickLater_of_le (l : List Event) (e : Event)
    (h : ∀ x ∈ l, x.created_at ≤ e.created_at) : l.foldl pickLater e = e := by
  induction l with
  | nil => rfl
  | cons a l ih =>
    have ha : ¬ (a.created_at > e.created_at) := not_lt.mpr (h a (by simp))
    have hstep : pickLater e a = e := by simp [pickLater, ha]
    rw [List.foldl_cons, hstep]
    exact ih (fun x hx => h x (by simp [hx]))

/-- C9 as stated fails: with a prior event stamped later than the clock, the
event published for the old account is older than the prior one and the
reduction over both selects the prior one; with a clock equal to the prior
stamp the published event is not older, and the reduction still selects the
prior one when it comes first. -/
theorem transferMetadata_created_at_not_monotone :
    (transferMetadata sampleLib sampleTeleport (.ok [profileAt 2000000000 "profile"])
        1700000000999 1700000001000 [.ok "saved"] [.ok "saved"]).published.head?
      = some (announcedAt 1700000000) ∧
    latestEvent [profileAt 2000000000 "profile", announcedAt 1700000000]
      = some (profileAt 2000000000 "profile") ∧
    latestEvent [announcedAt 1700000000, profileAt 2000000000 "profile"]
      = some (profileAt 2000000000 "profile") ∧
    (transferMetadata sampleLib sampleTeleport (.ok [profileAt 2000000000 "profile"])
        2000000000999 2000000001000 [.ok "saved"] [.ok "saved"]).published.head?
      = some (announcedAt 2000000000) ∧
    latestEvent [profileAt 2000000000 "profile", announcedAt 2000000000]
      = some (profileAt 2000000000 "profile") := by
  refine ⟨?_, by decide, by decide, ?_, by decide⟩
  · simp [transferMetadata, getMetadata, latestEvent, profileAt, sampleLib, spread, aboutIs, prop,
      List.lookup, aboutMessage, finalizeEvent, sampleTeleport, promiseAny, unixSeconds,
      oldAccountContent, announcedAt]
  · simp [transferMetadata, getMetadata, latestEvent, profileAt, sampleLib, spread, aboutIs, prop,
      List.lookup, aboutMessage, finalizeEvent, sampleTeleport, promiseAny, unixSeconds,
      oldAccountContent, announcedAt]

/-- C9, amended: when `transferMetadata` goes on to publish, the kind-0 event
it hands to `pool.publish` first is authored by the old account and stamped
`Math.floor(Date.now() / 1000)`, whatever the stamp of the prior event; when
that stamp is strictly greater than the stamp of the prior event selected as
latest, a later reduction over the new event together with the prior event, or
with all the events of the earlier answer, in front or behind, selects the new
event. -/
theorem transferMetadata_old_event_stamp (lib : Lib) (t : Teleport)
    (oldPrvKey newPrvKey : String) (relays : List String)
    (hc : construct lib oldPrvKey newPrvKey relays = some t)
    (events : List Event) (prior : Event) (o : List (String × Json)) (now1 now2 : Nat)
    (pub1 pub2 : List (Except String String))
    (hsel : latestEvent events = some prior)
    (hmeta : getMetadata lib (.ok events) = Metadata.object o)
    (hnew : aboutIs o (aboutMessage t.newAccount.npub) = false) :
    ∃ ev, (transferMetadata lib t (.ok events) now1 now2 pub1 pub2).published.head? = some ev ∧
      ev.kind = 0 ∧ ev.pubkey = t.oldAccount.pubKey ∧ ev.created_at = unixSeconds now1 ∧
      (prior.created_at < unixSeconds now1 →
        latestEvent [prior, ev] = some ev ∧ latestEvent [ev, prior] = some ev ∧
        latestEvent (events ++ [ev]) = some ev ∧ latestEvent (ev :: events) = some ev) := by
  obtain ⟨hko, hkn⟩ := construct_keys lib oldPrvKey newPrvKey relays t hc
  refine ⟨{ kind := 0, pubkey := t.oldAccount.pubKey, created_at := unixSeconds now1, tags := [],
            content := oldAccountContent lib o (aboutMessage t.newAccount.npub) }, ?_, rfl, rfl,
          rfl, ?_⟩
  · rcases promiseAny_cases pub1 with ⟨_, v1, hv1⟩ | ⟨_, errs1, he1⟩
    · rcases promiseAny_cases pub2 with ⟨_, v2, hv2⟩ | ⟨_, errs2, he2⟩
      · simp [transferMetadata, hmeta, hnew, finalizeEvent, hko, hkn, hv1, hv2]
      · simp [transferMetadata, hmeta, hnew, finalizeEvent, hko, hkn, hv1, he2]
    · simp [transferMetadata, hmeta, hnew, finalizeEvent, hko, hkn, he1]
  · intro hlt
    have hnot : ¬ (unixSeconds now1 < prior.created_at) := not_lt.mpr (le_of_lt hlt)
    obtain ⟨_, hmax⟩ := latestEvent_max events prior hsel
    refine ⟨by simp [latestEvent, pickLater, hlt], by simp [latestEvent, pickLater, hnot], ?_, ?_⟩
    · cases events with
      | nil => simp [latestEvent] at hsel
      | cons a l =>
        simp only [latestEvent, Option.some.injEq] at hsel
        simp [latestEvent, List.foldl_append, hsel, pickLater, hlt]
    · simp only [latestEvent]
      rw [foldl_pickLater_of_le]
      intro x hx
      exact le_trans (hmax x hx) (le_of_lt hlt)

/-- C9 amended, at a concrete input: a prior profile stamped 5, a clock at
7.9 seconds, the second publish rejected. -/
theorem transferMetadata_old_event_stamp_witness :
    ∃ ev, (transferMetadata sampleLib sampleTeleport (.ok [profileAt 5 "profile"]) 7900 8100
        [.ok "saved"] [.error "blocked"]).published.head? = some ev ∧
      ev.created_at = 7 ∧
      latestEvent [profileAt 5 "profile", ev] = some ev ∧
      latestEvent [ev, profileAt 5 "profile"] = some ev := by
  obtain ⟨ev, h1, _, _, h4, h5⟩ :=
    transferMetadata_old_event_stamp sampleLib sampleTeleport "old" "new" relayArray (by rfl)
      [profileAt 5 "profile"] (profileAt 5 "profile")
      [("name", Json.str "alice"), ("about", Json.str "hello")] 7900 8100
      [.ok "saved"] [.error "blocked"] (by rfl)
      (by simp [getMetadata, latestEvent, profileAt, sampleLib, spread])
      (by simp [aboutIs, prop, List.lookup, aboutMessage, sampleTeleport])
  have h7 : unixSeconds 7900 = 7 := by decide
  rw [h7] at h4 h5
  have h6 := h5 (by decide)
  exact ⟨ev, h1, h4, h6.1, h6.2.1⟩

/-! ## Contact and follower lists at concrete relay answers -/

/-- C7 at a failing input: the relays answer with an older contact list first
and a newer one second; `getContacts` returns the contacts of the first event,
not those of the event with the highest `created_at`. -/
theorem getContacts_reads_first_event :
    getContacts sampleLib (.ok [listAt 3 "pk-old" 100 ["aa"], listAt 3 "pk-old" 200 ["bb"]])
      = some [{ pubKey := "aa", npub := "npub1aa" }] ∧
    latestEvent [listAt 3 "pk-old" 100 ["aa"], listAt 3 "pk-old" 200 ["bb"]]
      = some (listAt 3 "pk-old" 200 ["bb"]) ∧
    followingsData (listAt 3 "pk-old" 200 ["bb"]) = [some "bb"] ∧
    getContacts sampleLib (.ok [listAt 3 "pk-old" 200 ["bb"], listAt 3 "pk-old" 100 ["aa"]])
      = some [{ pubKey := "bb", npub := "npub1bb" }] := by
  refine ⟨by decide, by decide, by decide, by decide⟩

/-- C8 at the failing input: when `pool.querySync` rejects inside
`getContacts`, `getContacts` returns `undefined` and `migrateContacts` throws
on `oldContacts.length`: nothing is published, and the method rejects instead
of completing; `transferMetadata` on the same failure ends as a no-op. -/
theorem migrateContacts_rejects_on_query_failure (lib : Lib) (t : Teleport) (err : String)
    (now now2 : Nat) (pub pub2 : List (Except String String)) :
    getContacts lib (.error err) = none ∧
    migrateContactsFrom lib t (.error err) now pub
      = { published := [], outcome := Outcome.threw } ∧
    transferMetadata lib t (.error err) now now2 pub pub2
      = { published := [], outcome := Outcome.noMetadata } := by
  refine ⟨rfl, rfl, rfl⟩

/-- C10 at a failing input: a relay answers with a wrong-kind event of author
`xx` in front of the kind-3 event of the same author; the first-occurrence
filter keeps the wrong-kind event, the kind test drops it, and `xx` is missing
from the followers. In the other order `xx` is listed. -/
theorem getFollowers_misses_author :
    getFollowers sampleLib (.ok [listAt 1 "xx" 100 ["pk-old"], listAt 3 "xx" 200 ["pk-old"]])
      = some [] ∧
    getFollowers sampleLib (.ok [listAt 3 "xx" 200 ["pk-old"], listAt 1 "xx" 100 ["pk-old"]])
      = some [{ pubKey := "xx", npub := "npub1xx" }] := by
  refine ⟨by decide, by decide⟩

end NostrTeleport
